import Mathlib

set_option maxHeartbeats 1000000

/-
Shallow embedding of the core of the ShaderTeacher repository:

* the diagnostics extractor (the inline error-line parsing in
  `compileShader`, src/components/ShaderCanvas.tsx),
* the program lifecycle (the compile effect of `ShaderCanvas`),
* the frame-clock behaviour of the render loop (`startTimeRef` / `animate`),
* the input debouncer (the `runnableCode` effect in src/App.tsx),
* the viewport adapter (`handleResize` / `handleMouseMove`),
* the AI service wrappers (src/services/geminiService.ts).

Strings are modelled as `List Char`; wall-clock instants as naturals
(milliseconds, the unit of `Date.now()`); the opaque WebGL handles as
attempt indices.
-/

/-! ### Characters and string helpers -/

/-- The backtick character, U+0060. -/
def btChar : Char := Char.ofNat 96

/-- The markdown code-fence delimiter, three backticks.  This is the literal
searched by `replace(/\x60\x60\x60/g, '')` in geminiService.ts. -/
def fence : List Char := [btChar, btChar, btChar]

/-- The `glsl`-tagged opening fence removed first by geminiService.ts. -/
def fenceGlsl : List Char := fence ++ "glsl".toList

/-- Whitespace in the sense of JavaScript's `String.prototype.trim`:
WhiteSpace and LineTerminator code points (tab, VT, FF, space, NBSP,
ZWNBSP, LF, CR, LS, PS). -/
def isJSWS (c : Char) : Bool :=
  c == ' ' || c == '\t' || c == '\n' || c == '\r' ||
  c == Char.ofNat 11 || c == Char.ofNat 12 || c == Char.ofNat 160 ||
  c == Char.ofNat 0x2028 || c == Char.ofNat 0x2029 || c == Char.ofNat 0xFEFF

/-- JavaScript `trim()`: drop whitespace from both ends. -/
def trimWS (s : List Char) : List Char :=
  ((s.dropWhile isJSWS).reverse.dropWhile isJSWS).reverse

/-- One left-to-right pass of JavaScript `str.replace(/pat/g, '')` with a
literal pattern `pat`: at each position, if `pat` starts there it is removed
(and scanning continues after it), otherwise the character is kept.  The
first argument is fuel; `replaceAll` supplies the string length, which
bounds the number of steps. -/
def replaceAllGo (pat : List Char) : Nat → List Char → List Char
  | _, [] => []
  | 0, s => s
  | fuel + 1, c :: rest =>
    if pat.isPrefixOf (c :: rest) then
      replaceAllGo pat fuel ((c :: rest).drop pat.length)
    else
      c :: replaceAllGo pat fuel rest

/-- JavaScript `str.replace(/pat/g, '')` for a literal, nonempty pattern. -/
def replaceAll (pat s : List Char) : List Char :=
  replaceAllGo pat s.length s

/-! ### Diagnostics extractor

The source (ShaderCanvas.tsx, `compileShader`) parses the shader info log
with `info.match(/ERROR: \d+:(\d+):/)` and reports
`{line: parseInt(match[1]), message: info}` on a match, else
`{line: 0, message: info}`. -/

/-- The `ShaderError` record of src/types.ts: a line number (0 when no line
could be determined) and the raw log as message. -/
structure ShaderError where
  line : Nat
  message : List Char
deriving DecidableEq

/-- The fixed prefix of the GLSL diagnostic pattern. -/
def errPrefix : List Char := "ERROR: ".toList

/-- `parseInt` on a nonempty decimal digit string. -/
def digitsToNat (l : List Char) : Nat :=
  l.foldl (fun acc c => acc * 10 + (c.toNat - 48)) 0

/-- Attempt to match the regex `ERROR: \d+:(\d+):` at the start of `s`,
returning the parsed capture group.  `\d+` is greedy; since a digit run
followed by anything but `:` cannot backtrack into a successful match,
greedy matching is exactly `takeWhile Char.isDigit`. -/
def matchPatAt (s : List Char) : Option Nat :=
  if errPrefix.isPrefixOf s then
    match (s.drop errPrefix.length).takeWhile Char.isDigit,
          (s.drop errPrefix.length).dropWhile Char.isDigit with
    | [], _ => none
    | _ :: _, c1 :: r3 =>
      if c1 = ':' then
        match r3.takeWhile Char.isDigit, r3.dropWhile Char.isDigit with
        | [], _ => none
        | n0 :: ns, c2 :: _ =>
          if c2 = ':' then some (digitsToNat (n0 :: ns)) else none
        | _ :: _, [] => none
      else none
    | _ :: _, [] => none
  else none

/-- JavaScript `String.prototype.match` with a non-global regex: try each
start position left to right, return the first successful match. -/
def findErrorLine : List Char → Option Nat
  | [] => none
  | c :: rest =>
    match matchPatAt (c :: rest) with
    | some n => some n
    | none => findErrorLine rest

/-- The diagnostics extractor: `{line, message}` from a raw info log,
exactly as in the fragment-failure branch of `compileShader`. -/
def extract (rawLog : List Char) : ShaderError :=
  match findErrorLine rawLog with
  | some n => { line := n, message := rawLog }
  | none => { line := 0, message := rawLog }

/-- All characters of `l` are decimal digits. -/
abbrev allDigits (l : List Char) : Prop := ∀ c ∈ l, c.isDigit = true

/-- Identifier characters, for the spec's reading of the shader-id slot as
an "arbitrary non-captured identifier". -/
def isIdentChar (c : Char) : Bool := c.isAlpha || c.isDigit || c == '_'

/-- The log contains an occurrence of `ERROR: <digits>:<digits>:` — the
shape the source's regex actually accepts. -/
def HasDigitPat (s : List Char) : Prop :=
  ∃ pre sid num post, sid ≠ [] ∧ allDigits sid ∧ num ≠ [] ∧ allDigits num ∧
    s = pre ++ errPrefix ++ sid ++ ':' :: (num ++ ':' :: post)

/-- The log contains `ERROR: <identifier>:<digits>:` with an arbitrary
identifier in the shader-id slot — the shape claimed by the spec. -/
def HasIdentPat (s : List Char) : Prop :=
  ∃ pre sid num post, sid ≠ [] ∧ (∀ c ∈ sid, isIdentChar c = true) ∧
    num ≠ [] ∧ allDigits num ∧
    s = pre ++ errPrefix ++ sid ++ ':' :: (num ++ ':' :: post)

/-! ### Extractor lemmas -/

/-- Driver behaviour for one recompile attempt, plus the fragment source
the attempt compiles. -/
structure AttemptSpec where
  fragSrc : List Char
  vsCreateOk : Bool
  vsOk : Bool
  vsLog : Option (List Char)
  fsCreateOk : Bool
  fsOk : Bool
  fsLog : Option (List Char)
  progCreateOk : Bool
  linkOk : Bool
  linkLog : Option (List Char)
deriving DecidableEq

/-- A call to the `onCompileError` consumer: either a diagnostic report or
the `null` that clears the pending diagnostic. -/
inductive ErrEvent where
  | report (d : ShaderError)
  | clear
deriving DecidableEq

/-- Observable effects of one recompile attempt: the `onCompileError` calls
in order, the program ids passed to `deleteProgram`, whether `linkProgram`
was reached, the id installed into `programRef` (if any), and the logs sent
to `console.error`. -/
structure AttemptTrace where
  events : List ErrEvent
  destroyed : List Nat
  linked : Bool
  installed : Option Nat
  consoled : List (Option (List Char))
deriving DecidableEq

/-- `compileShader` from ShaderCanvas.tsx: returns whether a shader handle
was produced, and the `onCompileError` calls it makes.  The error report is
made only for the fragment stage and only when the info log is truthy
(non-null and nonempty). -/
def compileShader (isFrag : Bool) (createOk compileOk : Bool)
    (log : Option (List Char)) : Bool × List ErrEvent :=
  if createOk = false then (false, [])
  else if compileOk = false then
    (false,
      if isFrag then
        match log with
        | some l => if l = [] then [] else [ErrEvent.report (extract l)]
        | none => []
      else [])
  else (true, [])

/-- The body of the compile effect for one attempt `a` with index `i`,
starting from the currently installed program `prev`. -/
def runAttempt (i : Nat) (a : AttemptSpec) (prev : Option (Nat × AttemptSpec)) :
    Option (Nat × AttemptSpec) × AttemptTrace :=
  let v := compileShader false a.vsCreateOk a.vsOk a.vsLog
  let f := compileShader true a.fsCreateOk a.fsOk a.fsLog
  let evs := v.2 ++ f.2
  if v.1 = false ∨ f.1 = false then
    (prev, ⟨evs, [], false, none, []⟩)
  else if a.progCreateOk = false then
    (prev, ⟨evs, [], false, none, []⟩)
  else if a.linkOk = false then
    (prev, ⟨evs, [], true, none, [a.linkLog]⟩)
  else
    (some (i, a),
     ⟨evs ++ [ErrEvent.clear],
      (match prev with | some p => [p.1] | none => []),
      true, some i, []⟩)

/-- Run a sequence of recompile attempts starting at index `i` from program
state `prev`, collecting each attempt's trace. -/
def runAttemptsFrom (i : Nat) (prev : Option (Nat × AttemptSpec)) :
    List AttemptSpec → Option (Nat × AttemptSpec) × List AttemptTrace
  | [] => (prev, [])
  | a :: rest =>
    let s := runAttempt i a prev
    let r := runAttemptsFrom (i + 1) s.1 rest
    (r.1, s.2 :: r.2)

/-- A whole session: attempts numbered from 0, starting with no program
installed (`programRef.current` initially null). -/
def runAttempts (specs : List AttemptSpec) :
    Option (Nat × AttemptSpec) × List AttemptTrace :=
  runAttemptsFrom 0 none specs

/-- An attempt fully succeeds when both stages are created and compile, the
program object is created, and the link succeeds. -/
def fullSuccess (a : AttemptSpec) : Bool :=
  a.vsCreateOk && a.vsOk && a.fsCreateOk && a.fsOk && a.progCreateOk && a.linkOk

/-- Modelled from the spec's words: the active program, if present, is the
one of the most recent attempt whose compile and link fully succeeded. -/
def specLastSuccessFrom (i : Nat) : List AttemptSpec → Option (Nat × AttemptSpec)
  | [] => none
  | a :: rest =>
    match specLastSuccessFrom (i + 1) rest with
    | some r => some r
    | none => if fullSuccess a then some (i, a) else none

/-- Spec-side definition of the invariant target for claim C1. -/
def specLastSuccess (specs : List AttemptSpec) : Option (Nat × AttemptSpec) :=
  specLastSuccessFrom 0 specs

/-- The mutable state of `ShaderCanvas` relevant to frame timing. -/
structure CanvasClock where
  startTime : Nat
  isPlaying : Bool
deriving DecidableEq

/-- Component mount: `startTimeRef = useRef(Date.now())`. -/
def mountCanvas (now : Nat) (playing : Bool) : CanvasClock :=
  { startTime := now, isPlaying := playing }

/-- The `isPlaying` effect: requests or cancels the animation frame loop
but leaves `startTimeRef` untouched. -/
def setPlaying (s : CanvasClock) (p : Bool) : CanvasClock :=
  { startTime := s.startTime, isPlaying := p }

/-- A sequence of play/pause toggles applied in order. -/
def applyPlayToggles (s : CanvasClock) (ts : List Bool) : CanvasClock :=
  ts.foldl setPlaying s

/-- The elapsed-time uniform computed by `animate` at wall time `now`, in
milliseconds (the source divides by 1000 before upload). -/
def animateElapsedMs (s : CanvasClock) (now : Nat) : Nat :=
  now - s.startTime

/-! ### Input debouncer (the `runnableCode` effect of `App`)

Each change of `code` clears the pending 800 ms timer and starts a new one;
a timer that reaches its deadline publishes its source into
`runnableCode`.  An edit list is a time-ordered list of `(t, source)`. -/

/-- The debounce window of App.tsx, in milliseconds. -/
def settleDelay : Nat := 800

/-- The settle events produced by a list of edits: the timer started by an
edit fires `settleDelay` later unless a subsequent edit arrives strictly
inside the window and cancels it. -/
def debounceSettles : List (Nat × List Char) → List (Nat × List Char)
  | [] => []
  | (t, s) :: rest =>
    match rest with
    | [] => [(t + settleDelay, s)]
    | (t', _) :: _ =>
      if t + settleDelay ≤ t' then (t + settleDelay, s) :: debounceSettles rest
      else debounceSettles rest

/-- Every pair of consecutive edits is closer than the debounce window
(the typing never pauses long enough for an intermediate settle). -/
def rapidEdits : List (Nat × List Char) → Bool
  | (t, _) :: (t', s') :: rest =>
    decide (t' < t + settleDelay) && rapidEdits ((t', s') :: rest)
  | _ => true

/-! ### Viewport adapter (`handleResize` / `handleMouseMove`)

`handleResize` sets the drawable size to the CSS size scaled by the device
pixel ratio; `handleMouseMove` stores `clientX - rect.left` and
`canvas.height - (clientY - rect.top)`.  `mouseRef` starts at `(0, 0)`. -/

/-- Canvas state owned by the viewport adapter. -/
structure ViewportState where
  width : Nat
  height : Nat
  mouseX : Int
  mouseY : Int
deriving DecidableEq

/-- Mount-time initialisation: `handleResize()` is invoked once, and
`mouseRef` holds `{x: 0, y: 0}`.  The device pixel ratio is modelled as a
natural number. -/
def initViewport (clientWidth clientHeight dpr : Nat) : ViewportState :=
  { width := clientWidth * dpr, height := clientHeight * dpr,
    mouseX := 0, mouseY := 0 }

/-- `handleMouseMove`: store the CSS-pixel offset as `x` and the flipped
`canvas.height - offset` as `y`. -/
def handleMouseMove (s : ViewportState) (clientX clientY rectLeft rectTop : Int) :
    ViewportState :=
  { width := s.width, height := s.height,
    mouseX := clientX - rectLeft,
    mouseY := (s.height : Int) - (clientY - rectTop) }

/-- Modelled from the spec's words for claim C9: the pointer position in
device pixels with the Y axis flipped against the device-pixel height. -/
def specPointerDevice (clientHeight dpr : Nat) (clientX clientY rectLeft rectTop : Int) :
    Int × Int :=
  ((clientX - rectLeft) * dpr, ((clientHeight : Int) - (clientY - rectTop)) * dpr)

/-! ### AI service wrappers (geminiService.ts)

Each operation is a total function of the underlying call's outcome: either
the model responded (with a possibly absent/empty `response.text`) or the
call threw and the `catch` branch runs.  Totality of these definitions is
the model of "never raises to its caller". -/

/-- Outcome of one `ai.models.generateContent` call. -/
inductive AIResp where
  | ok (text : Option (List Char))
  | err
deriving DecidableEq

/-- JavaScript `response.text || fallback`: the fallback is used when the
text is absent or empty (falsy). -/
def truthyOr (t : Option (List Char)) (fallback : List Char) : List Char :=
  match t with
  | some l => if l = [] then fallback else l
  | none => fallback

/-- The markdown cleanup of geminiService.ts:
`text.replace(/\x60\x60\x60glsl/g, '').replace(/\x60\x60\x60/g, '').trim()`. -/
def stripFences (s : List Char) : List Char :=
  trimWS (replaceAll fence (replaceAll fenceGlsl s))

/-- `generateShaderExplanation`: explanation text, or a fixed sentinel when
the call throws. -/
def generateShaderExplanation (_code : List Char) (r : AIResp) : List Char :=
  match r with
  | .ok t => truthyOr t ("Could not generate explanation.".toList)
  | .err => "Failed to connect to AI service.".toList

/-- `generateShaderFromPrompt`: cleaned-up shader code, or a sentinel string
with the `// Error` prefix the caller checks for. -/
def generateShaderFromPrompt (_prompt : List Char) (r : AIResp) : List Char :=
  match r with
  | .ok t => stripFences (truthyOr t [])
  | .err => "// Error generating shader. Please try again.".toList

/-- `fixShaderCode`: cleaned-up fixed code, or the original code unchanged
when the call throws. -/
def fixShaderCode (code _errorMsg : List Char) (r : AIResp) : List Char :=
  match r with
  | .ok t => stripFences (truthyOr t code)
  | .err => code

/-! ### Fence-removal lemmas (for claim C10)

The key fact: one global-replace pass with the pattern `\x60\x60\x60`
leaves no occurrence of three consecutive backticks, because a surviving
run of three backticks would have forced a match earlier in the scan. -/

/-- The list starts with a backtick. -/
def startsBT1 : List Char → Bool
  | c :: _ => c == btChar
  | [] => false

/-- The list starts with two backticks. -/
def startsBT2 : List Char → Bool
  | c :: d :: _ => c == btChar && d == btChar
  | _ => false

/-- The list contains three consecutive backticks somewhere. -/
def hasTriple : List Char → Bool
  | a :: b :: c :: rest =>
    (a == btChar && b == btChar && c == btChar) || hasTriple (b :: c :: rest)
  | _ => false

/-- A fully successful recompile attempt for fragment source `src`. -/
def okAttempt (src : List Char) : AttemptSpec :=
  { fragSrc := src, vsCreateOk := true, vsOk := true, vsLog := none,
    fsCreateOk := true, fsOk := true, fsLog := none,
    progCreateOk := true, linkOk := true, linkLog := none }

/-- An attempt whose fragment stage fails to compile, with a parseable log. -/
def fragFailAttempt : AttemptSpec :=
  { fragSrc := "void mai".toList, vsCreateOk := true, vsOk := true, vsLog := none,
    fsCreateOk := true, fsOk := false, fsLog := some ("ERROR: 0:3: bad".toList),
    progCreateOk := true, linkOk := true, linkLog := none }

/-- An attempt where both stages compile but the link step fails. -/
def linkFailAttempt : AttemptSpec :=
  { fragSrc := "frag".toList, vsCreateOk := true, vsOk := true, vsLog := none,
    fsCreateOk := true, fsOk := true, fsLog := none,
    progCreateOk := true, linkOk := false, linkLog := some ("link error".toList) }

/-- An attempt whose vertex stage fails to compile while the fragment stage
is fine. -/
def vertexFailAttempt : AttemptSpec :=
  { fragSrc := "frag".toList, vsCreateOk := true, vsOk := false,
    vsLog := some ("ERROR: 0:2: vs".toList),
    fsCreateOk := true, fsOk := true, fsLog := none,
    progCreateOk := true, linkOk := true, linkLog := none }

/-- Attempt 1 of the three-attempt scenario of claim C5. -/
def attempt1 : AttemptSpec := okAttempt ("frag one".toList)

/-- Attempt 3 of the three-attempt scenario of claim C5. -/
def attempt3 : AttemptSpec := okAttempt ("frag three".toList)

/-- The succeed / fail / succeed scenario of claim C5. -/
def threeAttempts : List AttemptSpec := [attempt1, fragFailAttempt, attempt3]

/-- The most recently typed content of a nonempty edit sequence `e :: es`. -/
def lastEdit (e : Nat × List Char) : List (Nat × List Char) → Nat × List Char
  | [] => e
  | e' :: es => lastEdit e' es

/-- A fenced model response used as the witness input for C10. -/
def fencedSample : List Char := fenceGlsl ++ "\nvoid main()\n".toList ++ fence

/-! ### Lemmas and claim theorems -/

theorem takeWhile_all_append {α : Type} {p : α → Bool} {l : List α}
    (hl : ∀ c ∈ l, p c = true) {c : α} (hc : p c = false) (r : List α) :
    (l ++ c :: r).takeWhile p = l ∧ (l ++ c :: r).dropWhile p = c :: r := by
  induction l with
  | nil => simp [List.takeWhile_cons, List.dropWhile_cons, hc]
  | cons d t ih =>
    have hd : p d = true := hl d (by simp)
    have ht : ∀ x ∈ t, p x = true := fun x hx => hl x (by simp [hx])
    obtain ⟨h1, h2⟩ := ih ht
    simp [List.takeWhile_cons, List.dropWhile_cons, hd, h1, h2]

theorem matchPatAt_instance {sid num : List Char} (post : List Char)
    (hsid : sid ≠ []) (hsd : allDigits sid) (hnum : num ≠ []) (hnd : allDigits num) :
    matchPatAt (errPrefix ++ sid ++ ':' :: (num ++ ':' :: post)) =
      some (digitsToNat num) := by
  have hcolon : Char.isDigit ':' = false := by decide
  have hpre : errPrefix.isPrefixOf (errPrefix ++ sid ++ ':' :: (num ++ ':' :: post)) = true := by
    rw [List.isPrefixOf_iff_prefix]
    exact ⟨sid ++ ':' :: (num ++ ':' :: post), by simp⟩
  have hdrop : (errPrefix ++ sid ++ ':' :: (num ++ ':' :: post)).drop errPrefix.length
      = sid ++ ':' :: (num ++ ':' :: post) :=
    List.drop_left errPrefix _
  have h1 := takeWhile_all_append hsd hcolon (num ++ ':' :: post)
  have h2 := takeWhile_all_append hnd hcolon post
  obtain ⟨s0, sid', rfl⟩ : ∃ s0 sid', sid = s0 :: sid' := by
    cases sid with
    | nil => exact absurd rfl hsid
    | cons a b => exact ⟨a, b, rfl⟩
  obtain ⟨n0, num', rfl⟩ : ∃ n0 num', num = n0 :: num' := by
    cases num with
    | nil => exact absurd rfl hnum
    | cons a b => exact ⟨a, b, rfl⟩
  rw [matchPatAt, if_pos hpre]
  rw [hdrop, h1.1, h1.2]
  simp only [List.cons_append] at h2
  simp [h2.1, h2.2]

theorem matchPatAt_sound {s : List Char} {n : Nat} (h : matchPatAt s = some n) :
    ∃ sid num post, sid ≠ [] ∧ allDigits sid ∧ num ≠ [] ∧ allDigits num ∧
      s = errPrefix ++ sid ++ ':' :: (num ++ ':' :: post) ∧ n = digitsToNat num := by
  rw [matchPatAt] at h
  split at h
  case isFalse => exact absurd h (by simp)
  case isTrue hpre =>
    obtain ⟨r1, hr1⟩ : ∃ r1, errPrefix ++ r1 = s :=
      List.isPrefixOf_iff_prefix.mp hpre
    have hdrop : s.drop errPrefix.length = r1 := by
      rw [← hr1]; exact List.drop_left errPrefix r1
    rw [hdrop] at h
    split at h
    case h_1 => exact absurd h (by simp)
    case h_3 => exact absurd h (by simp)
    case h_2 sid0 sid' c1 r3 hsid hrest =>
      split at h
      case isFalse => exact absurd h (by simp)
      case isTrue hc1 =>
        split at h
        case h_1 => exact absurd h (by simp)
        case h_3 => exact absurd h (by simp)
        case h_2 n0 ns c2 r5 hnum hrest2 =>
          split at h
          case isFalse => exact absurd h (by simp)
          case isTrue hc2 =>
            have hn : n = digitsToNat (n0 :: ns) := (Option.some.inj h).symm
            refine ⟨sid0 :: sid', n0 :: ns, r5, by simp, ?_, by simp, ?_, ?_, hn⟩
            · intro c hc
              have : c ∈ r1.takeWhile Char.isDigit := by rw [hsid]; exact hc
              exact List.mem_takeWhile_imp this
            · intro c hc
              have : c ∈ r3.takeWhile Char.isDigit := by rw [hnum]; exact hc
              exact List.mem_takeWhile_imp this
            · subst hc1 hc2
              have hr3 : r3 = (n0 :: ns) ++ ':' :: r5 := by
                rw [← List.takeWhile_append_dropWhile (p := Char.isDigit) (l := r3),
                  hnum, hrest2]
              have hr1eq : r1 = (sid0 :: sid') ++ ':' :: r3 := by
                rw [← List.takeWhile_append_dropWhile (p := Char.isDigit) (l := r1),
                  hsid, hrest]
              rw [← hr1, hr1eq, hr3]
              simp

theorem findErrorLine_sound : ∀ {s : List Char} {n : Nat},
    findErrorLine s = some n →
    ∃ pre sid num post, sid ≠ [] ∧ allDigits sid ∧ num ≠ [] ∧ allDigits num ∧
      s = pre ++ errPrefix ++ sid ++ ':' :: (num ++ ':' :: post) ∧
      n = digitsToNat num := by
  intro s
  induction s with
  | nil => intro n h; exact absurd h (by simp [findErrorLine])
  | cons c rest ih =>
    intro n h
    rw [findErrorLine] at h
    cases hm : matchPatAt (c :: rest) with
    | some k =>
      rw [hm] at h
      obtain ⟨sid, num, post, h1, h2, h3, h4, h5, h6⟩ := matchPatAt_sound hm
      exact ⟨[], sid, num, post, h1, h2, h3, h4, by simpa using h5,
        by rw [← Option.some.inj h]; exact h6⟩
    | none =>
      rw [hm] at h
      obtain ⟨pre, sid, num, post, h1, h2, h3, h4, h5, h6⟩ := ih h
      exact ⟨c :: pre, sid, num, post, h1, h2, h3, h4, by simp [h5], h6⟩

theorem findErrorLine_isSome_of_matchPatAt {s : List Char} {n : Nat}
    (h : matchPatAt s = some n) : (findErrorLine s).isSome = true := by
  cases s with
  | nil =>
    rw [show matchPatAt [] = none from by decide] at h
    exact absurd h (by simp)
  | cons c rest =>
    rw [findErrorLine, h]
    rfl

theorem findErrorLine_isSome_append (pre : List Char) {s : List Char}
    (h : (findErrorLine s).isSome = true) :
    (findErrorLine (pre ++ s)).isSome = true := by
  induction pre with
  | nil => simpa using h
  | cons c pre' ih =>
    rw [List.cons_append, findErrorLine]
    cases hm : matchPatAt (c :: (pre' ++ s)) with
    | some k => rfl
    | none => exact ih

theorem findErrorLine_isSome_iff {s : List Char} :
    (findErrorLine s).isSome = true ↔ HasDigitPat s := by
  constructor
  · intro h
    obtain ⟨n, hn⟩ := Option.isSome_iff_exists.mp h
    obtain ⟨pre, sid, num, post, h1, h2, h3, h4, h5, _⟩ := findErrorLine_sound hn
    exact ⟨pre, sid, num, post, h1, h2, h3, h4, h5⟩
  · rintro ⟨pre, sid, num, post, h1, h2, h3, h4, rfl⟩
    have hm := matchPatAt_instance post h1 h2 h3 h4
    have hs := findErrorLine_isSome_of_matchPatAt hm
    have := findErrorLine_isSome_append pre hs
    simpa using this

theorem extract_message (s : List Char) : (extract s).message = s := by
  rw [extract]
  cases h : findErrorLine s <;> simp

theorem runAttempt_fst (i : Nat) (a : AttemptSpec) (prev : Option (Nat × AttemptSpec)) :
    (runAttempt i a prev).1 = if fullSuccess a then some (i, a) else prev := by
  cases h1 : a.vsCreateOk <;> cases h2 : a.vsOk <;> cases h3 : a.fsCreateOk <;>
    cases h4 : a.fsOk <;> cases h5 : a.progCreateOk <;> cases h6 : a.linkOk <;>
    simp [runAttempt, compileShader, fullSuccess, h1, h2, h3, h4, h5, h6]

theorem runAttemptsFrom_fst (specs : List AttemptSpec) :
    ∀ (i : Nat) (prev : Option (Nat × AttemptSpec)),
    (runAttemptsFrom i prev specs).1 =
      match specLastSuccessFrom i specs with
      | some r => some r
      | none => prev := by
  induction specs with
  | nil => intro i prev; rfl
  | cons a rest ih =>
    intro i prev
    rw [runAttemptsFrom, specLastSuccessFrom]
    have hstep := runAttempt_fst i a prev
    rw [ih (i + 1) (runAttempt i a prev).1, hstep]
    cases h : specLastSuccessFrom (i + 1) rest <;> cases hf : fullSuccess a <;> simp [hf]

/-! ### Frame clock (`startTimeRef` and `animate`)

`startTimeRef` is initialised to `Date.now()` when the component mounts and
is never written again; the play/pause effect only requests or cancels
animation frames.  `animate` uploads `(Date.now() - startTimeRef.current) /
1000` as the time uniform; we model the elapsed value in milliseconds. -/

theorem hasTriple_cons (c : Char) (l : List Char) :
    hasTriple (c :: l) = ((c == btChar && startsBT2 l) || hasTriple l) := by
  match l with
  | [] => simp [hasTriple, startsBT2]
  | [d] => simp [hasTriple, startsBT2]
  | d :: e :: t => simp [hasTriple, startsBT2, Bool.and_assoc]

theorem startsBT2_cons (d : Char) (rest : List Char) :
    startsBT2 (d :: rest) = (d == btChar && startsBT1 rest) := by
  cases rest <;> simp [startsBT2, startsBT1]

theorem charBeqComm (a b : Char) : (a == b) = (b == a) := by
  by_cases h : a = b
  · subst h; rfl
  · rw [beq_eq_false_iff_ne.mpr h, beq_eq_false_iff_ne.mpr (Ne.symm h)]

theorem fence_isPrefixOf_iff (c : Char) (l : List Char) :
    fence.isPrefixOf (c :: l) = (c == btChar && startsBT2 l) := by
  match l with
  | [] => simp [fence, List.isPrefixOf, startsBT2]
  | [d] => simp [fence, List.isPrefixOf, startsBT2]
  | d :: e :: t =>
    simp only [fence, List.isPrefixOf, startsBT2, List.isPrefixOf_nil_left,
      Bool.and_true]
    rw [charBeqComm btChar c, charBeqComm btChar d, charBeqComm btChar e]

theorem replaceAllGo_nil (pat : List Char) (n : Nat) :
    replaceAllGo pat n [] = [] := by
  cases n <;> rfl

theorem startsBT1_replaceAllGo (n : Nat) (s : List Char)
    (h : startsBT1 s = false) : startsBT1 (replaceAllGo fence n s) = false := by
  match n, s with
  | _, [] => rw [replaceAllGo_nil]; rfl
  | 0, c :: rest => exact h
  | m + 1, c :: rest =>
    have hc : (c == btChar) = false := h
    have hp : fence.isPrefixOf (c :: rest) = false := by
      rw [fence_isPrefixOf_iff, hc, Bool.false_and]
    rw [replaceAllGo, if_neg (by rw [hp]; exact Bool.false_ne_true)]
    exact h

theorem startsBT2_replaceAllGo (n : Nat) (s : List Char)
    (h : startsBT2 s = false) : startsBT2 (replaceAllGo fence n s) = false := by
  match n, s with
  | _, [] => rw [replaceAllGo_nil]; rfl
  | 0, c :: rest => exact h
  | m + 1, [c] =>
    have hp : fence.isPrefixOf [c] = false := by
      rw [fence_isPrefixOf_iff]; simp [startsBT2]
    rw [replaceAllGo, if_neg (by rw [hp]; exact Bool.false_ne_true),
      replaceAllGo_nil]
    simp [startsBT2]
  | m + 1, c :: d :: rest =>
    have hcd : (c == btChar && (d == btChar)) = false := by
      have := h
      simpa [startsBT2] using this
    have hp : fence.isPrefixOf (c :: d :: rest) = false := by
      rw [fence_isPrefixOf_iff, startsBT2_cons]
      cases hc : (c == btChar) with
      | false => rfl
      | true =>
        cases hd : (d == btChar) with
        | false => simp [hd]
        | true => rw [hc, hd] at hcd; exact absurd hcd (by simp)
    rw [replaceAllGo, if_neg (by rw [hp]; exact Bool.false_ne_true)]
    rw [startsBT2_cons]
    cases hc : (c == btChar) with
    | false => simp
    | true =>
      have hd : (d == btChar) = false := by
        rw [hc] at hcd; simpa using hcd
      have h1 : startsBT1 (d :: rest) = false := hd
      have := startsBT1_replaceAllGo m (d :: rest) h1
      rw [this, Bool.and_false]

theorem hasTriple_replaceAllGo : ∀ (n : Nat) (s : List Char), s.length ≤ n →
    hasTriple (replaceAllGo fence n s) = false := by
  intro n
  induction n with
  | zero =>
    intro s hs
    have : s = [] := List.length_eq_zero.mp (Nat.le_zero.mp hs)
    subst this
    rfl
  | succ m ih =>
    intro s hs
    match s with
    | [] => rfl
    | c :: rest =>
      cases hp : fence.isPrefixOf (c :: rest) with
      | true =>
        rw [replaceAllGo, if_pos hp]
        apply ih
        have : fence.length = 3 := rfl
        rw [this]
        simp only [List.length_drop, List.length_cons]
        simp only [List.length_cons] at hs
        omega
      | false =>
        rw [replaceAllGo, if_neg (by rw [hp]; exact Bool.false_ne_true)]
        have hout := ih rest (by simpa using Nat.le_of_succ_le_succ hs)
        rw [hasTriple_cons, hout, Bool.or_false]
        cases hc : (c == btChar) with
        | false => rfl
        | true =>
          have h2 : startsBT2 rest = false := by
            rw [fence_isPrefixOf_iff, hc, Bool.true_and] at hp
            exact hp
          rw [startsBT2_replaceAllGo m rest h2, Bool.and_false]

theorem hasTriple_replaceAll (s : List Char) :
    hasTriple (replaceAll fence s) = false :=
  hasTriple_replaceAllGo s.length s (Nat.le_refl _)

/-- `hasTriple` is exactly "the fence occurs as a contiguous substring". -/
theorem hasTriple_iff_fence_sub (l : List Char) :
    hasTriple l = true ↔ fence <:+: l := by
  constructor
  · intro h
    induction l with
    | nil => exact absurd h (by simp [hasTriple])
    | cons c t ih =>
      rw [hasTriple_cons] at h
      rcases Bool.or_eq_true _ _ |>.mp h with h1 | h2
      · obtain ⟨hc, hst⟩ := Bool.and_eq_true _ _ |>.mp h1
        match t, hst with
        | d :: e :: t2, hst =>
          obtain ⟨hd, he⟩ := Bool.and_eq_true _ _ |>.mp hst
          refine ⟨[], t2, ?_⟩
          simp only [beq_iff_eq] at hc hd he
          subst hc hd he
          simp [fence]
      · obtain ⟨pre, post, hpp⟩ := ih h2
        exact ⟨c :: pre, post, by simp [← hpp]⟩
  · rintro ⟨pre, post, hpp⟩
    induction pre generalizing l with
    | nil =>
      subst hpp
      simp [fence, hasTriple]
    | cons c pre' ih =>
      subst hpp
      show hasTriple (c :: (pre' ++ fence ++ post)) = true
      rw [hasTriple_cons, ih (pre' ++ fence ++ post) rfl, Bool.or_true]

theorem not_fence_sub_of_hasTriple_eq_false {l : List Char}
    (h : hasTriple l = false) : ¬ fence <:+: l := by
  intro hinf
  rw [(hasTriple_iff_fence_sub l).mpr hinf] at h
  exact absurd h (by simp)

/-! ### Trim lemmas -/

theorem head_dropWhile_not {p : Char → Bool} : ∀ {l : List Char} {c : Char},
    (l.dropWhile p).head? = some c → p c = false := by
  intro l
  induction l with
  | nil => intro c h; exact absurd h (by simp)
  | cons d t ih =>
    intro c h
    rw [List.dropWhile_cons] at h
    by_cases hd : p d = true
    · rw [if_pos hd] at h
      exact ih h
    · rw [if_neg hd] at h
      have : d = c := by simpa using h
      subst this
      simpa using hd

theorem trimWS_prefix_core (s : List Char) :
    ∃ w, trimWS s ++ w = s.dropWhile isJSWS := by
  obtain ⟨a, ha⟩ : ∃ a, a ++ (s.dropWhile isJSWS).reverse.dropWhile isJSWS
      = (s.dropWhile isJSWS).reverse := List.dropWhile_suffix isJSWS
  refine ⟨a.reverse, ?_⟩
  have := congrArg List.reverse ha
  rw [List.reverse_append, List.reverse_reverse] at this
  exact this

theorem trimWS_sub_of_self (s : List Char) : trimWS s <:+: s := by
  obtain ⟨w, hw⟩ := trimWS_prefix_core s
  obtain ⟨v, hv⟩ : ∃ v, v ++ s.dropWhile isJSWS = s := List.dropWhile_suffix isJSWS
  exact ⟨v, w, by rw [List.append_assoc, hw, hv]⟩

theorem trimWS_head_not_ws {s : List Char} {c : Char}
    (h : (trimWS s).head? = some c) : isJSWS c = false := by
  obtain ⟨w, hw⟩ := trimWS_prefix_core s
  cases ht : trimWS s with
  | nil => rw [ht] at h; exact absurd h (by simp)
  | cons c0 t =>
    rw [ht] at h
    have hc0 : c0 = c := by simpa using h
    subst hc0
    rw [ht] at hw
    have : (s.dropWhile isJSWS).head? = some c0 := by
      rw [← hw]; rfl
    exact head_dropWhile_not this

theorem trimWS_getLast_not_ws {s : List Char} {c : Char}
    (h : (trimWS s).getLast? = some c) : isJSWS c = false := by
  rw [trimWS, List.getLast?_reverse] at h
  exact head_dropWhile_not h

/-- The composite cleanup: no fence substring survives `stripFences`, and
the result is trimmed. -/
theorem stripFences_spec (s : List Char) :
    ¬ fence <:+: stripFences s ∧ ¬ fenceGlsl <:+: stripFences s ∧
    (∀ c, (stripFences s).head? = some c → isJSWS c = false) ∧
    (∀ c, (stripFences s).getLast? = some c → isJSWS c = false) := by
  have hmid : hasTriple (replaceAll fence (replaceAll fenceGlsl s)) = false :=
    hasTriple_replaceAll (replaceAll fenceGlsl s)
  have hinf : trimWS (replaceAll fence (replaceAll fenceGlsl s))
      <:+: replaceAll fence (replaceAll fenceGlsl s) :=
    trimWS_sub_of_self _
  have hnof : ¬ fence <:+: stripFences s := by
    intro hcontra
    exact not_fence_sub_of_hasTriple_eq_false hmid (hcontra.trans hinf)
  refine ⟨hnof, ?_, fun c h => trimWS_head_not_ws h, fun c h => trimWS_getLast_not_ws h⟩
  intro hcontra
  have hfg : fence <+: fenceGlsl := ⟨"glsl".toList, rfl⟩
  exact hnof (hfg.isInfix.trans hcontra)

/-! ### Concrete attempts used in scenarios -/

theorem runAttempt_fail (i : Nat) (a : AttemptSpec) (prev : Option (Nat × AttemptSpec))
    (h : fullSuccess a = false) :
    (runAttempt i a prev).1 = prev ∧ (runAttempt i a prev).2.destroyed = [] := by
  cases h1 : a.vsCreateOk <;> cases h2 : a.vsOk <;> cases h3 : a.fsCreateOk <;>
    cases h4 : a.fsOk <;> cases h5 : a.progCreateOk <;> cases h6 : a.linkOk <;>
    simp_all [runAttempt, compileShader, fullSuccess]

/-! ### Claim theorems -/

/-- Claim C1 (confirmed).  For every sequence of recompile attempts the
active program equals the spec-side "most recent fully successful attempt"
(`specLastSuccess`), and any attempt in which the vertex stage, the fragment
stage, or the link step fails leaves the previously active program installed,
unchanged and undestroyed. -/
theorem c1_active_program_invariant :
    (∀ specs : List AttemptSpec, (runAttempts specs).1 = specLastSuccess specs) ∧
    (∀ (i : Nat) (a : AttemptSpec) (prev : Option (Nat × AttemptSpec)),
      (a.vsOk = false ∨ a.fsOk = false ∨ a.linkOk = false) →
      (runAttempt i a prev).1 = prev ∧ (runAttempt i a prev).2.destroyed = []) := by
  constructor
  · intro specs
    rw [runAttempts, specLastSuccess, runAttemptsFrom_fst]
    cases specLastSuccessFrom 0 specs <;> rfl
  · intro i a prev h
    apply runAttempt_fail
    rw [fullSuccess]
    rcases h with h | h | h <;> rw [h] <;> simp

/-- Witness for C1 at a concrete failing attempt following a success. -/
theorem c1_active_program_invariant_witness :
    (fragFailAttempt.vsOk = false ∨ fragFailAttempt.fsOk = false ∨
      fragFailAttempt.linkOk = false) ∧
    (runAttempt 1 fragFailAttempt (some (0, attempt1))).1 = some (0, attempt1) ∧
    (runAttempt 1 fragFailAttempt (some (0, attempt1))).2.destroyed = [] :=
  ⟨by decide,
   (c1_active_program_invariant.2 1 fragFailAttempt (some (0, attempt1)) (by decide)).1,
   (c1_active_program_invariant.2 1 fragFailAttempt (some (0, attempt1)) (by decide)).2⟩

/-- Claim C2, amended (corrected).  The extractor always echoes the raw log
as the message; when the log contains `ERROR: <digits>:<digits>:` (a digit
sequence, not an arbitrary identifier, in the shader-id slot) the returned
line is the parsed line number of such an occurrence; when no such
occurrence exists the returned line is 0; and the two concrete examples of
the spec hold. -/
theorem c2_extract_characterization : ∀ s : List Char,
    (extract s).message = s ∧
    (HasDigitPat s →
      ∃ pre sid num post, sid ≠ [] ∧ allDigits sid ∧ num ≠ [] ∧ allDigits num ∧
        s = pre ++ errPrefix ++ sid ++ ':' :: (num ++ ':' :: post) ∧
        (extract s).line = digitsToNat num) ∧
    (¬ HasDigitPat s → (extract s).line = 0) ∧
    extract ("ERROR: 0:7: 'foo' : undeclared identifier".toList) =
      ⟨7, "ERROR: 0:7: 'foo' : undeclared identifier".toList⟩ ∧
    extract ("no recognizable pattern here".toList) =
      ⟨0, "no recognizable pattern here".toList⟩ := by
  intro s
  refine ⟨extract_message s, ?_, ?_, by decide, by decide⟩
  · intro h
    have hs := findErrorLine_isSome_iff.mpr h
    obtain ⟨n, hn⟩ := Option.isSome_iff_exists.mp hs
    obtain ⟨pre, sid, num, post, h1, h2, h3, h4, h5, h6⟩ := findErrorLine_sound hn
    refine ⟨pre, sid, num, post, h1, h2, h3, h4, h5, ?_⟩
    rw [extract, hn]
    exact h6
  · intro h
    have hnone : findErrorLine s = none := by
      cases hf : findErrorLine s with
      | none => rfl
      | some k =>
        exact absurd (findErrorLine_isSome_iff.mp (by rw [hf]; rfl)) h
    rw [extract, hnone]

/-- Counterexample for C2 as stated: `"ERROR: a:7: bad"` carries the
claimed pattern with the identifier `a` in the shader-id slot, yet the code
returns line 0, not the parsed 7. -/
theorem c2_extract_counterexample :
    HasIdentPat ("ERROR: a:7: bad".toList) ∧
    extract ("ERROR: a:7: bad".toList) = ⟨0, "ERROR: a:7: bad".toList⟩ :=
  ⟨⟨[], "a".toList, "7".toList, " bad".toList,
    by decide, by decide, by decide, by decide, by decide⟩,
   by decide⟩

/-- Witness for C2 at the spec's two example logs. -/
theorem c2_extract_characterization_witness :
    HasDigitPat ("ERROR: 0:7: 'foo' : undeclared identifier".toList) ∧
    ¬ HasDigitPat ("no recognizable pattern here".toList) ∧
    (extract ("no recognizable pattern here".toList)).line = 0 ∧
    (extract ("ERROR: 0:7: 'foo' : undeclared identifier".toList)).line = 7 := by
  have h1 : HasDigitPat ("ERROR: 0:7: 'foo' : undeclared identifier".toList) :=
    ⟨[], "0".toList, "7".toList, " 'foo' : undeclared identifier".toList,
      by decide, by decide, by decide, by decide, by decide⟩
  have h2 : ¬ HasDigitPat ("no recognizable pattern here".toList) := by
    intro hp
    have := findErrorLine_isSome_iff.mpr hp
    rw [show findErrorLine ("no recognizable pattern here".toList) = none from by decide]
      at this
    exact absurd this (by simp)
  refine ⟨h1, h2,
    (c2_extract_characterization ("no recognizable pattern here".toList)).2.2.1 h2, ?_⟩
  rw [(c2_extract_characterization ("ERROR: 0:7: 'foo' : undeclared identifier".toList)).2.2.2.1]

/-- Claim C3, amended (corrected).  A recompile attempt in which both
stages compile but the link step fails leaves the previously active program
untouched and destroys nothing, but it reports nothing at all to the error
consumer: `onCompileError` is never invoked, and the raw program info log
goes only to `console.error`. -/
theorem c3_link_failure_silent :
    ∀ (i : Nat) (a : AttemptSpec) (prev : Option (Nat × AttemptSpec)),
    a.vsCreateOk = true → a.vsOk = true → a.fsCreateOk = true → a.fsOk = true →
    a.progCreateOk = true → a.linkOk = false →
    (runAttempt i a prev).1 = prev ∧
    (runAttempt i a prev).2.events = [] ∧
    (runAttempt i a prev).2.destroyed = [] ∧
    (runAttempt i a prev).2.linked = true ∧
    (runAttempt i a prev).2.consoled = [a.linkLog] := by
  intro i a prev h1 h2 h3 h4 h5 h6
  simp [runAttempt, compileShader, h1, h2, h3, h4, h5, h6]

/-- Counterexample for C3 as stated: on a concrete link-failing attempt no
`CompileDiagnostic` (with line 0 or otherwise) reaches the error consumer —
the event list is empty — though the previous program is indeed kept. -/
theorem c3_link_failure_counterexample :
    (runAttempt 1 linkFailAttempt (some (0, attempt1))).2.events = [] ∧
    (runAttempt 1 linkFailAttempt (some (0, attempt1))).1 = some (0, attempt1) ∧
    (runAttempt 1 linkFailAttempt (some (0, attempt1))).2.consoled =
      [some ("link error".toList)] := by
  refine ⟨by decide, by decide, by decide⟩

/-- Witness for C3 at a concrete link-failing attempt. -/
theorem c3_link_failure_silent_witness :
    linkFailAttempt.linkOk = false ∧
    (runAttempt 2 linkFailAttempt none).1 = none ∧
    (runAttempt 2 linkFailAttempt none).2.events = [] :=
  ⟨by decide,
   (c3_link_failure_silent 2 linkFailAttempt none rfl rfl rfl rfl rfl rfl).1,
   (c3_link_failure_silent 2 linkFailAttempt none rfl rfl rfl rfl rfl rfl).2.1⟩

/-- Claim C4, amended (corrected).  A vertex-stage compile failure leaves
the previous program untouched and linking is indeed not attempted, but the
failure is not propagated to the error consumer: the report branch of
`compileShader` fires only for the fragment stage, so the attempt's only
possible events come from the fragment compile. -/
theorem c4_vertex_failure_silent :
    ∀ (i : Nat) (a : AttemptSpec) (prev : Option (Nat × AttemptSpec)),
    a.vsOk = false →
    (runAttempt i a prev).1 = prev ∧
    (runAttempt i a prev).2.linked = false ∧
    (runAttempt i a prev).2.installed = none ∧
    (runAttempt i a prev).2.destroyed = [] ∧
    (runAttempt i a prev).2.events =
      (compileShader true a.fsCreateOk a.fsOk a.fsLog).2 := by
  intro i a prev h
  cases h1 : a.vsCreateOk <;>
    simp [runAttempt, compileShader, h, h1]

/-- Counterexample for C4 as stated: on a concrete attempt whose vertex
stage fails (and whose fragment stage is fine), no diagnostic at all is
delivered to the error consumer, even though linking is skipped as
claimed. -/
theorem c4_vertex_failure_counterexample :
    (runAttempt 0 vertexFailAttempt none).2.events = [] ∧
    (runAttempt 0 vertexFailAttempt none).2.linked = false ∧
    (runAttempt 0 vertexFailAttempt none).1 = none := by
  refine ⟨by decide, by decide, by decide⟩

/-- Witness for C4 at a concrete vertex-failing attempt after a success. -/
theorem c4_vertex_failure_silent_witness :
    vertexFailAttempt.vsOk = false ∧
    (runAttempt 1 vertexFailAttempt (some (0, attempt1))).1 = some (0, attempt1) ∧
    (runAttempt 1 vertexFailAttempt (some (0, attempt1))).2.linked = false :=
  ⟨by decide,
   (c4_vertex_failure_silent 1 vertexFailAttempt (some (0, attempt1)) rfl).1,
   (c4_vertex_failure_silent 1 vertexFailAttempt (some (0, attempt1)) rfl).2.1⟩

/-- Claim C5 (confirmed).  A fully successful attempt destroys the
previously active program exactly once (and destroys nothing when none was
active), installs the new program, and clears the pending diagnostic with a
final `onCompileError(null)`; in the succeed / fail / succeed scenario the
final active program is attempt 3's and attempt 1's program id appears
exactly once in all destruction lists. -/
theorem c5_success_replaces_and_destroys_once :
    (∀ (i : Nat) (a : AttemptSpec) (p : Nat × AttemptSpec),
      fullSuccess a = true →
      (runAttempt i a (some p)).1 = some (i, a) ∧
      (runAttempt i a (some p)).2.destroyed = [p.1] ∧
      (runAttempt i a (some p)).2.events = [ErrEvent.clear]) ∧
    (∀ (i : Nat) (a : AttemptSpec),
      fullSuccess a = true →
      (runAttempt i a none).2.destroyed = [] ∧
      (runAttempt i a none).1 = some (i, a)) ∧
    (runAttempts threeAttempts).1 = some (2, attempt3) ∧
    (runAttempts threeAttempts).2.map AttemptTrace.destroyed = [[], [], [0]] := by
  refine ⟨?_, ?_, by decide, by decide⟩
  · intro i a p h
    rw [fullSuccess, Bool.and_eq_true, Bool.and_eq_true, Bool.and_eq_true,
      Bool.and_eq_true, Bool.and_eq_true] at h
    obtain ⟨⟨⟨⟨⟨h1, h2⟩, h3⟩, h4⟩, h5⟩, h6⟩ := h
    simp [runAttempt, compileShader, h1, h2, h3, h4, h5, h6]
  · intro i a h
    rw [fullSuccess, Bool.and_eq_true, Bool.and_eq_true, Bool.and_eq_true,
      Bool.and_eq_true, Bool.and_eq_true] at h
    obtain ⟨⟨⟨⟨⟨h1, h2⟩, h3⟩, h4⟩, h5⟩, h6⟩ := h
    simp [runAttempt, compileShader, h1, h2, h3, h4, h5, h6]

/-- Witness for C5: a successful attempt over an installed program. -/
theorem c5_success_replaces_and_destroys_once_witness :
    fullSuccess attempt1 = true ∧
    (runAttempt 5 attempt1 (some (3, attempt3))).1 = some (5, attempt1) ∧
    (runAttempt 5 attempt1 (some (3, attempt3))).2.destroyed = [3] :=
  ⟨by decide,
   (c5_success_replaces_and_destroys_once.1 5 attempt1 (3, attempt3) (by decide)).1,
   (c5_success_replaces_and_destroys_once.1 5 attempt1 (3, attempt3) (by decide)).2.1⟩

theorem applyPlayToggles_startTime (s : CanvasClock) (ts : List Bool) :
    (applyPlayToggles s ts).startTime = s.startTime := by
  induction ts generalizing s with
  | nil => rfl
  | cons t ts' ih => exact (ih (setPlaying s t)).trans rfl

/-- Claim C6, amended (corrected).  Pausing and resuming never resets the
time reference, but neither does it freeze elapsed time: `startTimeRef` is
fixed at mount and `animate` reads wall clock minus mount time, so after
mounting at 0, pausing at 5 s and resuming 10 s later, the next frame's
elapsed time is 15 s — at least 5 s and not reset to 0, but jumped across
the paused interval (the reference resets only on a full remount). -/
theorem c6_elapsed_time_wall_clock :
    (∀ (m : Nat) (p : Bool) (ts : List Bool) (now : Nat),
      (applyPlayToggles (mountCanvas m p) ts).startTime = m ∧
      animateElapsedMs (applyPlayToggles (mountCanvas m p) ts) now = now - m) ∧
    animateElapsedMs (mountCanvas 0 true) 5000 = 5000 ∧
    animateElapsedMs (applyPlayToggles (mountCanvas 0 true) [false, true]) 15000
      = 15000 := by
  refine ⟨?_, rfl, rfl⟩
  intro m p ts now
  refine ⟨applyPlayToggles_startTime _ _, ?_⟩
  rw [animateElapsedMs, applyPlayToggles_startTime]
  rfl

/-- Counterexample for C6 as stated: in the exact scenario of the claim
(mount at 0, frames to 5 s, pause, resume, next frame at 15 s of wall time)
the elapsed-time uniform is 15 s — the claim's "has not jumped to 15 s" is
false on the code. -/
theorem c6_elapsed_time_counterexample :
    animateElapsedMs (mountCanvas 0 true) 5000 = 5000 ∧
    animateElapsedMs (applyPlayToggles (mountCanvas 0 true) [false, true]) 15000
      = 15000 ∧
    (applyPlayToggles (mountCanvas 0 true) [false, true]).startTime = 0 := by
  refine ⟨rfl, rfl, rfl⟩

/-- Claim C7 (confirmed).  Each edit cancels the pending timer and starts a
new 800 ms one; when no intermediate quiet gap occurs, exactly one settle
event fires, 800 ms after the last edit, carrying the most recently typed
content; in particular the edits at t = 0, 100, 200, 750 ms produce exactly
one settle event, at t = 1550 ms, with the content typed at t = 750. -/
theorem c7_debounce_single_settle :
    (∀ a b c d : List Char,
      debounceSettles [(0, a), (100, b), (200, c), (750, d)] = [(1550, d)]) ∧
    (∀ (e : Nat × List Char) (es : List (Nat × List Char)),
      rapidEdits (e :: es) = true →
      debounceSettles (e :: es) =
        [((lastEdit e es).1 + settleDelay, (lastEdit e es).2)]) := by
  constructor
  · intro a b c d
    rfl
  · intro e es
    induction es generalizing e with
    | nil =>
      intro _
      obtain ⟨t, s⟩ := e
      rfl
    | cons e' es' ih =>
      intro h
      obtain ⟨t, s⟩ := e
      obtain ⟨t', s'⟩ := e'
      rw [rapidEdits, Bool.and_eq_true] at h
      obtain ⟨hlt, hrest⟩ := h
      have hlt' : t' < t + settleDelay := of_decide_eq_true hlt
      rw [debounceSettles, if_neg (Nat.not_le.mpr hlt')]
      exact ih (t', s') hrest

/-- Witness for C7: two rapid edits yield one settle with the last content. -/
theorem c7_debounce_single_settle_witness :
    rapidEdits [(0, []), (100, "a".toList)] = true ∧
    debounceSettles [(0, []), (100, "a".toList)] = [(900, "a".toList)] :=
  ⟨by decide,
   c7_debounce_single_settle.2 (0, ([] : List Char)) [(100, "a".toList)] (by decide)⟩

/-- Claim C8 (confirmed).  Each AI operation is modelled as a total
function of the call's outcome — the `catch` branch of the source —
so none raises to its caller; when the underlying call errors, `fix`
returns the original source unchanged, `generate` returns the sentinel
string carrying the `// Error` prefix the caller tests for, and `explain`
returns the fixed failure sentinel. -/
theorem c8_ai_fallbacks :
    ∀ code prompt errorMsg : List Char,
    fixShaderCode code errorMsg AIResp.err = code ∧
    "// Error".toList <+: generateShaderFromPrompt prompt AIResp.err ∧
    generateShaderExplanation code AIResp.err =
      "Failed to connect to AI service.".toList := by
  intro code prompt errorMsg
  refine ⟨rfl, ⟨" generating shader. Please try again.".toList, ?_⟩, rfl⟩
  show "// Error".toList ++ " generating shader. Please try again.".toList =
    "// Error generating shader. Please try again.".toList
  decide

/-- Claim C9, amended (corrected).  The pointer position before any motion
event is `(0, 0)`, and the stored position matches the device-pixel,
bottom-left-origin convention exactly when the device pixel ratio is 1: in
general `x` is the CSS-pixel offset (not scaled by the ratio) and `y`
subtracts a CSS-pixel offset from the device-pixel canvas height. -/
theorem c9_pointer_default_and_units :
    ∀ (cw ch dpr : Nat) (cx cy rl rt : Int),
    ((initViewport cw ch dpr).mouseX = 0 ∧ (initViewport cw ch dpr).mouseY = 0) ∧
    (dpr = 1 →
      ((handleMouseMove (initViewport cw ch dpr) cx cy rl rt).mouseX,
       (handleMouseMove (initViewport cw ch dpr) cx cy rl rt).mouseY) =
        specPointerDevice ch dpr cx cy rl rt) := by
  intro cw ch dpr cx cy rl rt
  refine ⟨⟨rfl, rfl⟩, ?_⟩
  rintro rfl
  simp only [handleMouseMove, initViewport, specPointerDevice, Prod.mk.injEq]
  constructor <;> push_cast <;> ring

/-- Counterexample for C9 as stated: with device pixel ratio 2 on a
100 × 100 CSS surface, a pointer event at CSS offset (10, 10) is stored as
(10, 190), while the device-pixel convention demands (20, 180). -/
theorem c9_pointer_units_counterexample :
    (handleMouseMove (initViewport 100 100 2) 10 10 0 0).mouseX = 10 ∧
    (handleMouseMove (initViewport 100 100 2) 10 10 0 0).mouseY = 190 ∧
    specPointerDevice 100 2 10 10 0 0 = (20, 180) ∧
    (handleMouseMove (initViewport 100 100 2) 10 10 0 0).mouseX ≠
      (specPointerDevice 100 2 10 10 0 0).1 := by
  refine ⟨by decide, by decide, by decide, by decide⟩

/-- Witness for C9 at device pixel ratio 1. -/
theorem c9_pointer_default_and_units_witness :
    ((initViewport 3 4 1).mouseX = 0) ∧
    ((handleMouseMove (initViewport 3 4 1) 2 1 0 0).mouseX,
     (handleMouseMove (initViewport 3 4 1) 2 1 0 0).mouseY) =
      specPointerDevice 4 1 2 1 0 0 :=
  ⟨(c9_pointer_default_and_units 3 4 1 2 1 0 0).1.1,
   (c9_pointer_default_and_units 3 4 1 2 1 0 0).2 rfl⟩

/-- Claim C10 (confirmed).  Whatever text the model responds with, the
string returned by `generate` (and by `fix` on the success path) contains
no three-backtick fence, hence no `glsl`-tagged fence either, and carries
no leading or trailing whitespace. -/
theorem c10_no_fences_in_ai_output :
    ∀ (t : Option (List Char)) (code prompt errorMsg : List Char),
    (¬ fence <:+: generateShaderFromPrompt prompt (AIResp.ok t)) ∧
    (¬ fenceGlsl <:+: generateShaderFromPrompt prompt (AIResp.ok t)) ∧
    (∀ c, (generateShaderFromPrompt prompt (AIResp.ok t)).head? = some c →
      isJSWS c = false) ∧
    (∀ c, (generateShaderFromPrompt prompt (AIResp.ok t)).getLast? = some c →
      isJSWS c = false) ∧
    (¬ fence <:+: fixShaderCode code errorMsg (AIResp.ok t)) ∧
    (¬ fenceGlsl <:+: fixShaderCode code errorMsg (AIResp.ok t)) ∧
    (∀ c, (fixShaderCode code errorMsg (AIResp.ok t)).head? = some c →
      isJSWS c = false) ∧
    (∀ c, (fixShaderCode code errorMsg (AIResp.ok t)).getLast? = some c →
      isJSWS c = false) := by
  intro t code prompt errorMsg
  obtain ⟨a1, a2, a3, a4⟩ := stripFences_spec (truthyOr t [])
  obtain ⟨b1, b2, b3, b4⟩ := stripFences_spec (truthyOr t code)
  exact ⟨a1, a2, a3, a4, b1, b2, b3, b4⟩

/-- Witness for C10 on a concrete fenced, padded model response. -/
theorem c10_no_fences_in_ai_output_witness :
    (generateShaderFromPrompt [] (AIResp.ok (some fencedSample))).head? = some 'v' ∧
    isJSWS 'v' = false ∧
    (generateShaderFromPrompt [] (AIResp.ok (some fencedSample))).getLast? = some ')' ∧
    isJSWS ')' = false :=
  ⟨by decide,
   (c10_no_fences_in_ai_output (some fencedSample) [] [] []).2.2.1 'v' (by decide),
   by decide,
   (c10_no_fences_in_ai_output (some fencedSample) [] [] []).2.2.2.1 ')' (by decide)⟩
